import Mathlib

/-!
# DataRun — scoring and candidate-ranking pipeline, shallow embedding

Embeds the core of `src/DataRun` (the scoring/ranking pipeline of
`consultas_parques.py` together with the mediator functions of
`mediator.py`) into Lean 4 and settles the frozen claims about it.

Modelling conventions:
* Python floats are modelled as exact rationals (`ℚ`); `round(x, n)` is
  modelled as round-half-to-even at `n` decimal digits, which is Python 3's
  rounding mode.
* Network calls (`requests.get` + `raise_for_status`) are modelled by passing
  the decoded payload as an `Except Unit` value: `.error ()` stands for a
  transport/HTTP-status failure (an exception propagating out of
  `raise_for_status`), `.ok v` for a successfully decoded payload.
* The MongoDB park catalog is passed in as a `List Park`.
* `haversine_km` computes with `math.sin`/`math.cos`/`math.asin`/`math.sqrt`;
  it is embedded over `ℝ` (exact real arithmetic).  The ranking pipeline
  receives the distance function as a parameter `distFn` so that pipeline
  claims can be evaluated on concrete rational inputs.
-/

namespace DataRun

/-- Round-half-to-even on `ℚ`, the tie-breaking rule of Python 3's `round`. -/
def roundHalfEven (x : ℚ) : ℤ :=
  let f : ℤ := ⌊x⌋
  let frac : ℚ := x - f
  if frac < 1/2 then f
  else if 1/2 < frac then f + 1
  else if f % 2 = 0 then f else f + 1

/-- Python's `round(x, n)` for `n` decimal digits, on exact rationals. -/
def roundTo (n : ℕ) (x : ℚ) : ℚ :=
  (roundHalfEven (x * 10 ^ n) : ℚ) / 10 ^ n

/-- Python truthiness of an optional float: `None` and `0.0` are falsy. -/
def truthy : Option ℚ → Bool
  | none => false
  | some r => r != 0

/-- The hourly scoring loop of `get_weather_score_for_date`
(`mediator.py` lines 46–56): iterate `zip(temps, precs)`; an hour with
precipitation above 2 mm contributes nothing; otherwise a temperature in
`[10, 24]` adds 2 and a temperature in `[5, 10) ∪ (24, 28]` adds 1. -/
def weatherScore (temps precs : List ℚ) : ℤ :=
  (temps.zip precs).foldl
    (fun score tp =>
      if tp.2 > 2 then score
      else if 10 ≤ tp.1 ∧ tp.1 ≤ 24 then score + 2
      else if (5 ≤ tp.1 ∧ tp.1 < 10) ∨ (24 < tp.1 ∧ tp.1 ≤ 28) then score + 1
      else score)
    0

/-- Model of `get_weather_score_for_date` (`mediator.py`): the argument is the outcome
of the Open-Meteo fetch — `.error ()` when `requests.get`/`raise_for_status`
fails, `.ok (temps, precs)` with the decoded hourly series otherwise.  The
scoring loop runs on the two series exactly as fetched. -/
def get_weather_score_for_date (resp : Except Unit (List ℚ × List ℚ)) :
    Except Unit ℤ :=
  match resp with
  | .error e => .error e
  | .ok (temps, precs) => .ok (weatherScore temps precs)

/-- Model of `get_elevation` (`mediator.py`): the argument is the outcome of the Google
Elevation fetch, decoded to the list of `results[i]["elevation"]` values.
An HTTP failure propagates; an empty `results` degrades to
`(None, "desconocido")`; otherwise the first elevation is classified. -/
def get_elevation (resp : Except Unit (List ℚ)) :
    Except Unit (Option ℚ × String) :=
  match resp with
  | .error e => .error e
  | .ok [] => .ok (none, "desconocido")
  | .ok (elevation :: _) =>
    let cat := if elevation < 650 then "llano"
               else if elevation < 750 then "moderado"
               else "elevado"
    .ok (some elevation, cat)

/-- Model of `get_best_route` (`mediator.py`): the argument is the outcome of the
Google Directions fetch, decoded to the list of
`routes[i]["legs"][0]["duration"]["value"]` values (seconds).  An HTTP
failure propagates; an empty `routes` yields `None`; otherwise the first
route's leg duration is converted to minutes. -/
def get_best_route (resp : Except Unit (List ℚ)) : Except Unit (Option ℚ) :=
  match resp with
  | .error e => .error e
  | .ok [] => .ok none
  | .ok (duration_sec :: _) => .ok (some (duration_sec / 60))

/-- A park document from the `parks` collection, as used by the pipeline. -/
structure Park where
  name : String
  address : Option String
  lat : ℚ
  lon : ℚ
deriving DecidableEq, Repr

/-- The candidate dictionary built in `best_park_for_day`
(`consultas_parques.py` lines 104–118). -/
structure Candidate where
  day : String
  user_lat : ℚ
  user_lon : ℚ
  name : String
  address : Option String
  location_lat : ℚ
  location_lon : ℚ
  distance_km : ℚ
  route_minutes : Option ℚ
  elevation : Option ℚ
  elevation_category : String
  weather_score : ℤ
  final_score : ℚ
deriving DecidableEq, Repr

/-- The combined score of `best_park_for_day` lines 99–102:
`score = weather_score; score -= dist; if route_min: score -= route_min / 10`.
Kept at full precision; rounding happens only in the candidate record. -/
def rawScore (weather_score : ℤ) (dist : ℚ) (route_min : Option ℚ) : ℚ :=
  if truthy route_min then
    (weather_score : ℚ) - dist - route_min.getD 0 / 10
  else
    (weather_score : ℚ) - dist

/-- The candidate record literal of `best_park_for_day` lines 104–118. -/
def mkCandidate (day : String) (user_lat user_lon : ℚ) (park : Park)
    (dist : ℚ) (elevation : Option ℚ) (elevation_cat : String)
    (route_min : Option ℚ) (weather_score : ℤ) : Candidate :=
  { day := day
    user_lat := user_lat
    user_lon := user_lon
    name := park.name
    address := park.address
    location_lat := park.lat
    location_lon := park.lon
    distance_km := roundTo 2 dist
    route_minutes := if truthy route_min
                     then some (roundTo 1 (route_min.getD 0)) else none
    elevation := elevation
    elevation_category := elevation_cat
    weather_score := weather_score
    final_score := roundTo 2 (rawScore weather_score dist route_min) }

/-- The running-best update of `best_park_for_day` lines 122–123:
`if mejor is None or candidato["final_score"] > mejor["final_score"]`. -/
def updateBest (mejor : Option Candidate) (c : Candidate) : Option Candidate :=
  match mejor with
  | none => some c
  | some b => if c.final_score > b.final_score then some c else some b

/-- The park loop of `best_park_for_day` lines 87–123.  `distFn` is
`haversine_km(user_lat, user_lon, lat, lon)` evaluated per park; `elevResp`
and `routeResp` are the per-park outcomes of the two provider fetches.
Mirrors the source exactly: distance pre-filter, elevation and route lookups
(whose HTTP failures propagate out of the loop), candidate construction,
append, running-best update. -/
def processParks (day : String) (user_lat user_lon : ℚ)
    (distFn : Park → ℚ)
    (elevResp routeResp : Park → Except Unit (List ℚ))
    (weather_score : ℤ) (max_distance_km : ℚ) :
    List Park → Option Candidate → List Candidate →
    Except Unit (Option Candidate × List Candidate)
  | [], mejor, candidatos => .ok (mejor, candidatos)
  | park :: rest, mejor, candidatos =>
    let dist := distFn park
    if dist > max_distance_km then
      processParks day user_lat user_lon distFn elevResp routeResp
        weather_score max_distance_km rest mejor candidatos
    else
      match get_elevation (elevResp park) with
      | .error e => .error e
      | .ok (elevation, elevation_cat) =>
        match get_best_route (routeResp park) with
        | .error e => .error e
        | .ok route_min =>
          let candidato := mkCandidate day user_lat user_lon park dist
            elevation elevation_cat route_min weather_score
          processParks day user_lat user_lon distFn elevResp routeResp
            weather_score max_distance_km rest
            (updateBest mejor candidato) (candidatos ++ [candidato])

/-- Model of `best_park_for_day` (`consultas_parques.py` lines 63–125): one shared
weather fetch (whose failure aborts the query), then the park loop starting
from `mejor = None`, `candidatos = []`. -/
def best_park_for_day (day : String) (user_lat user_lon : ℚ)
    (distFn : Park → ℚ)
    (weatherResp : Except Unit (List ℚ × List ℚ))
    (elevResp routeResp : Park → Except Unit (List ℚ))
    (parks : List Park) (max_distance_km : ℚ) :
    Except Unit (Option Candidate × List Candidate) :=
  match get_weather_score_for_date weatherResp with
  | .error e => .error e
  | .ok weather_score =>
    processParks day user_lat user_lon distFn elevResp routeResp
      weather_score max_distance_km parks none []

/-- Degrees-to-radians conversion, `math.radians`. -/
noncomputable def radians (x : ℝ) : ℝ := x * Real.pi / 180

/-- The intermediate value `a` of `haversine_km`
(`consultas_parques.py` lines 47–50):
`sin(d_lat/2)**2 + cos(radians lat1) * cos(radians lat2) * sin(d_lon/2)**2`. -/
noncomputable def haversineRadicand (lat1 lon1 lat2 lon2 : ℝ) : ℝ :=
  Real.sin (radians (lat2 - lat1) / 2) ^ 2 +
    Real.cos (radians lat1) * Real.cos (radians lat2) *
      Real.sin (radians (lon2 - lon1) / 2) ^ 2

/-- Model of `haversine_km` (`consultas_parques.py` lines 41–52), in exact
real arithmetic: `2 * R * asin(sqrt a)` with `R = 6371`.  The source applies
`math.asin` to `math.sqrt(a)` directly, with no clamping of `a` into
`[0, 1]`. -/
noncomputable def haversine_km (lat1 lon1 lat2 lon2 : ℝ) : ℝ :=
  2 * 6371 * Real.arcsin (Real.sqrt (haversineRadicand lat1 lon1 lat2 lon2))

/-- The per-hour contribution claimed by the specification (§4.2): 0 when
precipitation exceeds 2 mm, otherwise 2 for temperatures in `[10, 24]`,
1 for temperatures in `[5, 10) ∪ (24, 28]`, else 0.  Stated from the spec's
words, to be compared with the loop of `weatherScore`. -/
def specHourContribution (t p : ℚ) : ℤ :=
  if p > 2 then 0
  else if 10 ≤ t ∧ t ≤ 24 then 2
  else if (5 ≤ t ∧ t < 10) ∨ (24 < t ∧ t ≤ 28) then 1
  else 0

lemma radians_neg (x : ℝ) : radians (-x) = -radians x := by
  unfold radians; ring

lemma radians_sub (x y : ℝ) : radians (x - y) = radians x - radians y := by
  unfold radians; ring

lemma haversineRadicand_symm (lat1 lon1 lat2 lon2 : ℝ) :
    haversineRadicand lat2 lon2 lat1 lon1 =
      haversineRadicand lat1 lon1 lat2 lon2 := by
  unfold haversineRadicand
  have e1 : lat1 - lat2 = -(lat2 - lat1) := by ring
  have e2 : lon1 - lon2 = -(lon2 - lon1) := by ring
  rw [e1, e2, radians_neg, radians_neg, neg_div, Real.sin_neg, neg_div,
    Real.sin_neg]
  ring

lemma haversineRadicand_self (lat lon : ℝ) :
    haversineRadicand lat lon lat lon = 0 := by
  unfold haversineRadicand
  simp [radians]

lemma cos_radians_nonneg (lat : ℝ) (h1 : -90 ≤ lat) (h2 : lat ≤ 90) :
    0 ≤ Real.cos (radians lat) := by
  apply Real.cos_nonneg_of_mem_Icc
  constructor
  · unfold radians
    nlinarith [Real.pi_pos]
  · unfold radians
    nlinarith [Real.pi_pos]

/-- C7: the distance estimator is symmetric,
`haversine_km a b = haversine_km b a`, and vanishes on equal coordinates,
`haversine_km a a = 0` — exactly, hence in particular within floating
tolerance. -/
theorem haversine_symm_and_self_zero (lat1 lon1 lat2 lon2 : ℝ) :
    haversine_km lat1 lon1 lat2 lon2 = haversine_km lat2 lon2 lat1 lon1 ∧
      haversine_km lat1 lon1 lat1 lon1 = 0 := by
  constructor
  · unfold haversine_km
    rw [haversineRadicand_symm]
  · unfold haversine_km
    rw [haversineRadicand_self]
    simp

/-- C8 (supporting theorem): in exact real arithmetic the radicand of
`haversine_km` always lies in `[0, 1]` for valid latitudes, so `asin ∘ sqrt`
is applied within its domain.  The claimed clamping step does not exist in
the source, and under double-precision floating point the radicand can
exceed 1 for valid near-antipodal coordinates, making `math.asin` raise —
this theorem delimits the failure to that missing clamp. -/
theorem haversine_radicand_in_unit_interval (lat1 lon1 lat2 lon2 : ℝ)
    (h1 : -90 ≤ lat1) (h2 : lat1 ≤ 90) (h3 : -90 ≤ lat2) (h4 : lat2 ≤ 90) :
    0 ≤ haversineRadicand lat1 lon1 lat2 lon2 ∧
      haversineRadicand lat1 lon1 lat2 lon2 ≤ 1 := by
  have hc1 := cos_radians_nonneg lat1 h1 h2
  have hc2 := cos_radians_nonneg lat2 h3 h4
  unfold haversineRadicand
  constructor
  · have hq1 := sq_nonneg (Real.sin (radians (lat2 - lat1) / 2))
    have hq2 := sq_nonneg (Real.sin (radians (lon2 - lon1) / 2))
    nlinarith [mul_nonneg hc1 hc2]
  · rw [radians_sub]
    set φ1 := radians lat1
    set φ2 := radians lat2
    have hs1 : Real.sin ((φ2 - φ1) / 2) ^ 2
        = 1 / 2 - Real.cos (φ2 - φ1) / 2 := by
      have h := Real.sin_sq_eq_half_sub ((φ2 - φ1) / 2)
      rwa [show 2 * ((φ2 - φ1) / 2) = φ2 - φ1 by ring] at h
    have hsub : Real.cos (φ2 - φ1)
        = Real.cos φ2 * Real.cos φ1 + Real.sin φ2 * Real.sin φ1 :=
      Real.cos_sub _ _
    have hadd : Real.cos (φ2 + φ1)
        = Real.cos φ2 * Real.cos φ1 - Real.sin φ2 * Real.sin φ1 :=
      Real.cos_add _ _
    have hle : Real.cos (φ2 + φ1) ≤ 1 := Real.cos_le_one _
    have hs2 : Real.sin (radians (lon2 - lon1) / 2) ^ 2 ≤ 1 :=
      Real.sin_sq_le_one _
    have hs2n : 0 ≤ Real.sin (radians (lon2 - lon1) / 2) ^ 2 := sq_nonneg _
    nlinarith [mul_nonneg hc1 hc2]

/-- Witness for C8's theorem: the radicand bound evaluated at an
equatorial/antipodal pair of coordinates. -/
theorem haversine_radicand_in_unit_interval_witness :
    (-90 : ℝ) ≤ 0 ∧ (0 : ℝ) ≤ 90 ∧
      (0 ≤ haversineRadicand 0 0 0 180 ∧ haversineRadicand 0 0 0 180 ≤ 1) :=
  ⟨by norm_num, by norm_num,
    haversine_radicand_in_unit_interval 0 0 0 180 (by norm_num) (by norm_num)
      (by norm_num) (by norm_num)⟩

lemma foldl_hour_eq_sum (l : List (ℚ × ℚ)) : ∀ (s : ℤ),
    l.foldl
      (fun score tp =>
        if tp.2 > 2 then score
        else if 10 ≤ tp.1 ∧ tp.1 ≤ 24 then score + 2
        else if (5 ≤ tp.1 ∧ tp.1 < 10) ∨ (24 < tp.1 ∧ tp.1 ≤ 28) then
          score + 1
        else score)
      s
      = s + (l.map (fun tp => specHourContribution tp.1 tp.2)).sum := by
  induction l with
  | nil => intro s; simp
  | cons tp rest ih =>
    intro s
    simp only [List.foldl_cons, List.map_cons, List.sum_cons]
    rw [ih]
    unfold specHourContribution
    split_ifs <;> ring

lemma specHourContribution_bounds (t p : ℚ) :
    0 ≤ specHourContribution t p ∧ specHourContribution t p ≤ 2 := by
  unfold specHourContribution
  split_ifs <;> omega

lemma sum_specHourContribution_bounds (l : List (ℚ × ℚ)) :
    0 ≤ (l.map (fun tp => specHourContribution tp.1 tp.2)).sum ∧
      (l.map (fun tp => specHourContribution tp.1 tp.2)).sum ≤ 2 * l.length := by
  induction l with
  | nil => simp
  | cons tp rest ih =>
    simp only [List.map_cons, List.sum_cons, List.length_cons]
    have h := specHourContribution_bounds tp.1 tp.2
    constructor
    · exact add_nonneg h.1 ih.1
    · push_cast
      omega

lemma weatherScore_eq_sum (temps precs : List ℚ) :
    weatherScore temps precs
      = ((temps.zip precs).map (fun tp => specHourContribution tp.1 tp.2)).sum := by
  unfold weatherScore
  rw [foldl_hour_eq_sum]
  ring

lemma zip_eq_zip_take (temps : List ℚ) : ∀ (precs : List ℚ),
    temps.zip precs
      = (temps.take precs.length).zip (precs.take temps.length) := by
  induction temps with
  | nil => intro precs; simp
  | cons t ts ih =>
    intro precs
    cases precs with
    | nil => simp
    | cons p ps =>
      simp only [List.length_cons, List.take_succ_cons, List.zip_cons_cons]
      rw [ih]

/-- C3 counterexample: `get_weather_score_for_date` does not fail on
hourly series of unequal length — at temperatures `[15]` and precipitation
`[]` the lengths differ, yet the scorer returns the ordinary value `.ok 0`
instead of any error. -/
theorem weather_unequal_lengths_returns_ok :
    ([(15 : ℚ)].length ≠ ([] : List ℚ).length) ∧
      get_weather_score_for_date (.ok ([(15 : ℚ)], ([] : List ℚ))) = .ok 0 :=
  ⟨by simp, rfl⟩

/-- C3 (amended): instead of failing on unequal-length series, the scorer
silently truncates both series to the shorter length (the semantics of
`zip`) and scores the truncated, equal-length series. -/
theorem weather_score_truncates_to_shorter (temps precs : List ℚ) :
    get_weather_score_for_date (.ok (temps, precs))
      = .ok (weatherScore (temps.take precs.length)
          (precs.take temps.length)) := by
  simp only [get_weather_score_for_date]
  unfold weatherScore
  rw [← zip_eq_zip_take]

/-- C4: for equal-length hourly series the weather score equals the sum over
hours of the specified per-hour contribution (0 for precipitation above 2 mm
regardless of temperature, else 2 on `[10, 24]`, 1 on `[5, 10) ∪ (24, 28]`,
0 otherwise), and is a non-negative integer bounded by twice the number of
hours. -/
theorem weather_score_formula_and_bounds (temps precs : List ℚ)
    (h : temps.length = precs.length) :
    weatherScore temps precs
        = ((temps.zip precs).map (fun tp => specHourContribution tp.1 tp.2)).sum ∧
      0 ≤ weatherScore temps precs ∧
      weatherScore temps precs ≤ 2 * temps.length := by
  have he := weatherScore_eq_sum temps precs
  have hb := sum_specHourContribution_bounds (temps.zip precs)
  have hlen : (temps.zip precs).length = temps.length := by
    rw [List.length_zip, h, min_self]
  refine ⟨he, ?_, ?_⟩
  · rw [he]; exact hb.1
  · rw [he, ← hlen]; exact hb.2

/-- Witness for C4's theorem: a one-hour series with temperature 15 °C and
no precipitation. -/
theorem weather_score_formula_and_bounds_witness :
    ([(15 : ℚ)].length = [(0 : ℚ)].length) ∧
      (weatherScore [(15 : ℚ)] [(0 : ℚ)]
          = (([(15 : ℚ)].zip [(0 : ℚ)]).map
              (fun tp => specHourContribution tp.1 tp.2)).sum ∧
        0 ≤ weatherScore [(15 : ℚ)] [(0 : ℚ)] ∧
        weatherScore [(15 : ℚ)] [(0 : ℚ)] ≤ 2 * [(15 : ℚ)].length) :=
  ⟨rfl, weather_score_formula_and_bounds [(15 : ℚ)] [(0 : ℚ)] rfl⟩

/-- C5: the candidate's full-precision combined score equals
`weather_score - distance_km - (route_minutes / 10 when present else 0)`;
in particular `score(20, 5, 30 min) = 12`.  (For a zero route duration both
readings coincide, so the truthiness test in the source does not disturb the
formula.) -/
theorem raw_score_formula :
    (∀ (ws : ℤ) (dist : ℚ) (r : Option ℚ),
        rawScore ws dist r = (ws : ℚ) - dist - r.getD 0 / 10) ∧
      rawScore 20 5 (some 30) = 12 := by
  constructor
  · intro ws dist r
    cases r with
    | none => simp [rawScore, truthy]
    | some m =>
      by_cases hm : m = 0
      · subst hm; simp [rawScore, truthy]
      · simp [rawScore, truthy, hm]
  · norm_num [rawScore, truthy]

/-- C10: a route whose provider duration is 0 seconds is treated exactly
like an absent route: `get_best_route` converts it to `0.0` minutes, which
is falsy, so the candidate records `route_minutes = None`, no route-time
penalty is subtracted, and the whole candidate record coincides with the
no-route one. -/
theorem zero_duration_route_treated_as_absent :
    get_best_route (.ok [(0 : ℚ)]) = .ok (some 0) ∧
      (∀ (ws : ℤ) (dist : ℚ), rawScore ws dist (some 0) = rawScore ws dist none) ∧
      (∀ (day : String) (ulat ulon : ℚ) (park : Park) (dist : ℚ)
          (elev : Option ℚ) (cat : String) (ws : ℤ),
        mkCandidate day ulat ulon park dist elev cat (some 0) ws
          = mkCandidate day ulat ulon park dist elev cat none ws) := by
  refine ⟨by norm_num [get_best_route], ?_, ?_⟩
  · intro ws dist
    simp [rawScore, truthy]
  · intro day ulat ulon park dist elev cat ws
    simp [mkCandidate, rawScore, truthy]

lemma processParks_nil {day : String} {ulat ulon : ℚ} {distFn : Park → ℚ}
    {elevResp routeResp : Park → Except Unit (List ℚ)} {ws : ℤ} {maxd : ℚ}
    {mejor : Option Candidate} {acc : List Candidate} :
    processParks day ulat ulon distFn elevResp routeResp ws maxd [] mejor acc
      = .ok (mejor, acc) := rfl

lemma processParks_cons_far {day : String} {ulat ulon : ℚ} {distFn : Park → ℚ}
    {elevResp routeResp : Park → Except Unit (List ℚ)} {ws : ℤ} {maxd : ℚ}
    {park : Park} {rest : List Park} {mejor : Option Candidate}
    {acc : List Candidate} (hd : distFn park > maxd) :
    processParks day ulat ulon distFn elevResp routeResp ws maxd
        (park :: rest) mejor acc
      = processParks day ulat ulon distFn elevResp routeResp ws maxd
          rest mejor acc := by
  simp [processParks, hd]

lemma processParks_cons_elev_error {day : String} {ulat ulon : ℚ}
    {distFn : Park → ℚ} {elevResp routeResp : Park → Except Unit (List ℚ)}
    {ws : ℤ} {maxd : ℚ} {park : Park} {rest : List Park}
    {mejor : Option Candidate} {acc : List Candidate} {e : Unit}
    (hd : ¬distFn park > maxd)
    (he : get_elevation (elevResp park) = .error e) :
    processParks day ulat ulon distFn elevResp routeResp ws maxd
        (park :: rest) mejor acc = .error e := by
  simp [processParks, hd, he]

lemma processParks_cons_route_error {day : String} {ulat ulon : ℚ}
    {distFn : Park → ℚ} {elevResp routeResp : Park → Except Unit (List ℚ)}
    {ws : ℤ} {maxd : ℚ} {park : Park} {rest : List Park}
    {mejor : Option Candidate} {acc : List Candidate} {elev : Option ℚ}
    {cat : String} {e : Unit} (hd : ¬distFn park > maxd)
    (he : get_elevation (elevResp park) = .ok (elev, cat))
    (hr : get_best_route (routeResp park) = .error e) :
    processParks day ulat ulon distFn elevResp routeResp ws maxd
        (park :: rest) mejor acc = .error e := by
  simp [processParks, hd, he, hr]

lemma processParks_cons_step {day : String} {ulat ulon : ℚ}
    {distFn : Park → ℚ} {elevResp routeResp : Park → Except Unit (List ℚ)}
    {ws : ℤ} {maxd : ℚ} {park : Park} {rest : List Park}
    {mejor : Option Candidate} {acc : List Candidate} {elev : Option ℚ}
    {cat : String} {route : Option ℚ} (hd : ¬distFn park > maxd)
    (he : get_elevation (elevResp park) = .ok (elev, cat))
    (hr : get_best_route (routeResp park) = .ok route) :
    processParks day ulat ulon distFn elevResp routeResp ws maxd
        (park :: rest) mejor acc
      = processParks day ulat ulon distFn elevResp routeResp ws maxd rest
          (updateBest mejor
            (mkCandidate day ulat ulon park (distFn park) elev cat route ws))
          (acc ++
            [mkCandidate day ulat ulon park (distFn park) elev cat route ws]) := by
  simp [processParks, hd, he, hr]

lemma foldl_updateBest_some (l : List Candidate) :
    ∀ (a : Candidate), ∃ b, l.foldl updateBest (some a) = some b := by
  induction l with
  | nil => intro a; exact ⟨a, rfl⟩
  | cons c rest ih =>
    intro a
    simp only [List.foldl_cons]
    by_cases hc : c.final_score > a.final_score
    · rw [show updateBest (some a) c = some c from by simp [updateBest, hc]]
      exact ih c
    · rw [show updateBest (some a) c = some a from by simp [updateBest, hc]]
      exact ih a

lemma foldl_updateBest_spec (l : List Candidate) :
    ∀ (a b : Candidate), l.foldl updateBest (some a) = some b →
      (∀ c ∈ l, c.final_score ≤ b.final_score) ∧
      a.final_score ≤ b.final_score ∧
      (b = a ∨ ∃ l1 l2, l = l1 ++ b :: l2 ∧
        a.final_score < b.final_score ∧
        ∀ c ∈ l1, c.final_score < b.final_score) := by
  induction l with
  | nil =>
    intro a b h
    simp only [List.foldl_nil, Option.some.injEq] at h
    subst h
    exact ⟨by simp, le_refl _, Or.inl rfl⟩
  | cons c rest ih =>
    intro a b h
    simp only [List.foldl_cons] at h
    by_cases hc : c.final_score > a.final_score
    · rw [show updateBest (some a) c = some c from by simp [updateBest, hc]] at h
      obtain ⟨hall, hcb, hdisj⟩ := ih c b h
      refine ⟨?_, le_of_lt (lt_of_lt_of_le hc hcb), Or.inr ?_⟩
      · intro x hx
        rcases List.mem_cons.mp hx with hx | hx
        · subst hx; exact hcb
        · exact hall x hx
      · rcases hdisj with hbc | ⟨l1, l2, hsplit, hclt, hl1⟩
        · subst hbc
          exact ⟨[], rest, rfl, hc, by simp⟩
        · refine ⟨c :: l1, l2, by rw [hsplit, List.cons_append], lt_trans hc hclt, ?_⟩
          intro x hx
          rcases List.mem_cons.mp hx with hx | hx
          · subst hx; exact hclt
          · exact hl1 x hx
    · rw [show updateBest (some a) c = some a from by simp [updateBest, hc]] at h
      obtain ⟨hall, hab, hdisj⟩ := ih a b h
      have hca : c.final_score ≤ a.final_score := not_lt.mp hc
      refine ⟨?_, hab, ?_⟩
      · intro x hx
        rcases List.mem_cons.mp hx with hx | hx
        · subst hx; exact le_trans hca hab
        · exact hall x hx
      · rcases hdisj with hba | ⟨l1, l2, hsplit, halt, hl1⟩
        · exact Or.inl hba
        · refine Or.inr ⟨c :: l1, l2, by rw [hsplit, List.cons_append], halt, ?_⟩
          intro x hx
          rcases List.mem_cons.mp hx with hx | hx
          · subst hx; exact lt_of_le_of_lt hca halt
          · exact hl1 x hx

lemma foldl_updateBest_none (l : List Candidate) (b : Candidate)
    (h : l.foldl updateBest none = some b) :
    ∃ l1 l2, l = l1 ++ b :: l2 ∧
      (∀ c ∈ l1, c.final_score < b.final_score) ∧
      (∀ c ∈ l, c.final_score ≤ b.final_score) := by
  cases l with
  | nil => simp at h
  | cons c rest =>
    simp only [List.foldl_cons] at h
    rw [show updateBest none c = some c from rfl] at h
    obtain ⟨hall, hcb, hdisj⟩ := foldl_updateBest_spec rest c b h
    have hmem : ∀ x ∈ c :: rest, x.final_score ≤ b.final_score := by
      intro x hx
      rcases List.mem_cons.mp hx with hx | hx
      · subst hx; exact hcb
      · exact hall x hx
    rcases hdisj with hbc | ⟨l1, l2, hsplit, hclt, hl1⟩
    · subst hbc
      exact ⟨[], rest, rfl, by simp, hmem⟩
    · refine ⟨c :: l1, l2, by rw [hsplit, List.cons_append], ?_, hmem⟩
      intro x hx
      rcases List.mem_cons.mp hx with hx | hx
      · subst hx; exact hclt
      · exact hl1 x hx

lemma processParks_eq (day : String) (ulat ulon : ℚ) (distFn : Park → ℚ)
    (elevResp routeResp : Park → Except Unit (List ℚ)) (ws : ℤ) (maxd : ℚ) :
    ∀ (parks : List Park) (mejor : Option Candidate) (acc : List Candidate)
      (bb : Option Candidate) (cs : List Candidate),
      processParks day ulat ulon distFn elevResp routeResp ws maxd
          parks mejor acc = .ok (bb, cs) →
      ∃ newCs, cs = acc ++ newCs ∧ bb = newCs.foldl updateBest mejor ∧
        ∀ c ∈ newCs, ∃ p ∈ parks, distFn p ≤ maxd ∧
          ∃ elev cat route, get_elevation (elevResp p) = .ok (elev, cat) ∧
            get_best_route (routeResp p) = .ok route ∧
            c = mkCandidate day ulat ulon p (distFn p) elev cat route ws := by
  intro parks
  induction parks with
  | nil =>
    intro mejor acc bb cs h
    rw [processParks_nil] at h
    injection h with h
    injection h with h1 h2
    subst h1
    subst h2
    exact ⟨[], by simp, rfl, by simp⟩
  | cons park rest ih =>
    intro mejor acc bb cs h
    by_cases hd : distFn park > maxd
    · rw [processParks_cons_far hd] at h
      obtain ⟨newCs, h1, h2, h3⟩ := ih mejor acc bb cs h
      refine ⟨newCs, h1, h2, fun c hc => ?_⟩
      obtain ⟨p, hp, hrest⟩ := h3 c hc
      exact ⟨p, List.mem_cons_of_mem _ hp, hrest⟩
    · rcases he : get_elevation (elevResp park) with e | ⟨elev, cat⟩
      · rw [processParks_cons_elev_error hd he] at h
        simp at h
      · rcases hr : get_best_route (routeResp park) with e | route
        · rw [processParks_cons_route_error hd he hr] at h
          simp at h
        · rw [processParks_cons_step hd he hr] at h
          obtain ⟨newCs, h1, h2, h3⟩ := ih _ _ _ _ h
          refine ⟨mkCandidate day ulat ulon park (distFn park) elev cat route
              ws :: newCs, ?_, ?_, ?_⟩
          · rw [h1]; simp
          · rw [h2]; rfl
          · intro x hx
            rcases List.mem_cons.mp hx with hx | hx
            · subst hx
              exact ⟨park, List.mem_cons_self _ _, not_lt.mp hd, elev, cat,
                route, he, hr, rfl⟩
            · obtain ⟨p, hp, hrest⟩ := h3 x hx
              exact ⟨p, List.mem_cons_of_mem _ hp, hrest⟩

lemma best_run_spec (day : String) (ulat ulon : ℚ) (distFn : Park → ℚ)
    (weatherResp : Except Unit (List ℚ × List ℚ))
    (elevResp routeResp : Park → Except Unit (List ℚ))
    (parks : List Park) (maxd : ℚ) (b : Candidate) (cs : List Candidate)
    (h : best_park_for_day day ulat ulon distFn weatherResp elevResp routeResp
        parks maxd = .ok (some b, cs)) :
    ∃ l1 l2, cs = l1 ++ b :: l2 ∧
      (∀ c ∈ l1, c.final_score < b.final_score) ∧
      (∀ c ∈ cs, c.final_score ≤ b.final_score) := by
  rcases weatherResp with e | ⟨temps, precs⟩
  · simp [best_park_for_day, get_weather_score_for_date] at h
  · have h' : processParks day ulat ulon distFn elevResp routeResp
        (weatherScore temps precs) maxd parks none [] = .ok (some b, cs) := h
    obtain ⟨newCs, h1, h2, _⟩ := processParks_eq day ulat ulon distFn elevResp
      routeResp (weatherScore temps precs) maxd parks none [] (some b) cs h'
    simp only [List.nil_append] at h1
    subst h1
    exact foldl_updateBest_none cs b h2.symm

/-- C1: when a ranking run returns a best candidate, that candidate occurs
in the produced candidate list, every candidate's `final_score` is at most
the best's, and every candidate discovered before the best scores strictly
less — so the first candidate becomes best, a later one replaces it only on
strictly greater `final_score`, and ties keep the earlier-discovered
candidate (catalog iteration order). -/
theorem best_is_first_max_final_score (day : String) (ulat ulon : ℚ)
    (distFn : Park → ℚ) (weatherResp : Except Unit (List ℚ × List ℚ))
    (elevResp routeResp : Park → Except Unit (List ℚ))
    (parks : List Park) (maxd : ℚ) (b : Candidate) (cs : List Candidate)
    (h : best_park_for_day day ulat ulon distFn weatherResp elevResp routeResp
        parks maxd = .ok (some b, cs)) :
    ∃ l1 l2, cs = l1 ++ b :: l2 ∧
      (∀ c ∈ l1, c.final_score < b.final_score) ∧
      (∀ c ∈ cs, c.final_score ≤ b.final_score) :=
  best_run_spec day ulat ulon distFn weatherResp elevResp routeResp parks maxd
    b cs h

/-- Witness for C1's theorem: two parks at the same distance tie on
`final_score` and the earlier one (`"A"`) is kept as best. -/
theorem best_is_first_max_final_score_witness :
    (best_park_for_day "d" 0 0 (fun p => p.lat) (.ok ([], []))
        (fun _ => .ok []) (fun _ => .ok [])
        [⟨"A", none, 1, 0⟩, ⟨"B", none, 1, 5⟩] 15
      = .ok
          (some (mkCandidate "d" 0 0 ⟨"A", none, 1, 0⟩ 1 none "desconocido"
            none 0),
          [mkCandidate "d" 0 0 ⟨"A", none, 1, 0⟩ 1 none "desconocido" none 0,
            mkCandidate "d" 0 0 ⟨"B", none, 1, 5⟩ 1 none "desconocido" none
              0])) ∧
      ∃ l1 l2,
        [mkCandidate "d" 0 0 ⟨"A", none, 1, 0⟩ 1 none "desconocido" none 0,
            mkCandidate "d" 0 0 ⟨"B", none, 1, 5⟩ 1 none "desconocido" none 0]
          = l1 ++
              mkCandidate "d" 0 0 ⟨"A", none, 1, 0⟩ 1 none "desconocido" none
                0 :: l2 ∧
        (∀ c ∈ l1,
          c.final_score <
            (mkCandidate "d" 0 0 ⟨"A", none, 1, 0⟩ 1 none "desconocido" none
              0).final_score) ∧
        (∀ c ∈
            [mkCandidate "d" 0 0 ⟨"A", none, 1, 0⟩ 1 none "desconocido" none
                0,
              mkCandidate "d" 0 0 ⟨"B", none, 1, 5⟩ 1 none "desconocido" none
                0],
          c.final_score ≤
            (mkCandidate "d" 0 0 ⟨"A", none, 1, 0⟩ 1 none "desconocido" none
              0).final_score) := by
  have hrun : best_park_for_day "d" 0 0 (fun p => p.lat) (.ok ([], []))
      (fun _ => .ok []) (fun _ => .ok [])
      [⟨"A", none, 1, 0⟩, ⟨"B", none, 1, 5⟩] 15
      = .ok
          (some (mkCandidate "d" 0 0 ⟨"A", none, 1, 0⟩ 1 none "desconocido"
            none 0),
          [mkCandidate "d" 0 0 ⟨"A", none, 1, 0⟩ 1 none "desconocido" none 0,
            mkCandidate "d" 0 0 ⟨"B", none, 1, 5⟩ 1 none "desconocido" none
              0]) := by
    norm_num [best_park_for_day, get_weather_score_for_date, weatherScore,
      processParks, get_elevation, get_best_route, updateBest, mkCandidate,
      rawScore, truthy, roundTo, roundHalfEven]
  exact ⟨hrun, best_is_first_max_final_score "d" 0 0 (fun p => p.lat)
    (.ok ([], [])) (fun _ => .ok []) (fun _ => .ok [])
    [⟨"A", none, 1, 0⟩, ⟨"B", none, 1, 5⟩] 15 _ _ hrun⟩

/-- C2 counterexample: the best-candidate comparison uses the rounded
`final_score`, not the retained full-precision value.  With weather score 11
and distances 0.999 km and 0.996 km the unrounded scores are 10.001 and
10.004 — the second is strictly larger — yet both round to 10.0, so the
tie-break keeps the first park `"A"` as best even though its unrounded
final score is not maximal. -/
theorem best_not_max_unrounded_counterexample :
    (best_park_for_day "d" 0 0 (fun p => p.lat)
        (.ok ([15, 15, 15, 15, 15, 6], [0, 0, 0, 0, 0, 0]))
        (fun _ => .ok []) (fun _ => .ok [])
        [⟨"A", none, 999/1000, 0⟩, ⟨"B", none, 996/1000, 0⟩] 15
      = .ok
          (some (mkCandidate "d" 0 0 ⟨"A", none, 999/1000, 0⟩ (999/1000) none
            "desconocido" none 11),
          [mkCandidate "d" 0 0 ⟨"A", none, 999/1000, 0⟩ (999/1000) none
              "desconocido" none 11,
            mkCandidate "d" 0 0 ⟨"B", none, 996/1000, 0⟩ (996/1000) none
              "desconocido" none 11])) ∧
      rawScore 11 (999/1000) none < rawScore 11 (996/1000) none := by
  constructor
  · norm_num [best_park_for_day, get_weather_score_for_date, weatherScore,
      processParks, get_elevation, get_best_route, updateBest, mkCandidate,
      rawScore, truthy, roundTo, roundHalfEven]
  · norm_num [rawScore, truthy]

/-- C2 (amended): `final_score` is rounded to 2 decimals at candidate
creation, the best-candidate comparison uses this stored rounded value, and
the returned best is a candidate whose (rounded) `final_score` is maximal
among all candidates produced. -/
theorem best_max_over_rounded_final_score (day : String) (ulat ulon : ℚ)
    (distFn : Park → ℚ) (weatherResp : Except Unit (List ℚ × List ℚ))
    (elevResp routeResp : Park → Except Unit (List ℚ))
    (parks : List Park) (maxd : ℚ) (b : Candidate) (cs : List Candidate)
    (h : best_park_for_day day ulat ulon distFn weatherResp elevResp routeResp
        parks maxd = .ok (some b, cs)) :
    b ∈ cs ∧ ∀ c ∈ cs, c.final_score ≤ b.final_score := by
  obtain ⟨l1, l2, hsplit, _, hmax⟩ := best_run_spec day ulat ulon distFn
    weatherResp elevResp routeResp parks maxd b cs h
  subst hsplit
  exact ⟨List.mem_append_right _ (List.mem_cons_self _ _), hmax⟩

/-- Witness for the amended C2 theorem: a single-park run. -/
theorem best_max_over_rounded_final_score_witness :
    (best_park_for_day "w" 0 0 (fun p => p.lat) (.ok ([], []))
        (fun _ => .ok []) (fun _ => .ok []) [⟨"P", none, 2, 0⟩] 15
      = .ok
          (some (mkCandidate "w" 0 0 ⟨"P", none, 2, 0⟩ 2 none "desconocido"
            none 0),
          [mkCandidate "w" 0 0 ⟨"P", none, 2, 0⟩ 2 none "desconocido" none
            0])) ∧
      (mkCandidate "w" 0 0 ⟨"P", none, 2, 0⟩ 2 none "desconocido" none 0
          ∈ [mkCandidate "w" 0 0 ⟨"P", none, 2, 0⟩ 2 none "desconocido" none
            0] ∧
        ∀ c ∈
            [mkCandidate "w" 0 0 ⟨"P", none, 2, 0⟩ 2 none "desconocido" none
              0],
          c.final_score ≤
            (mkCandidate "w" 0 0 ⟨"P", none, 2, 0⟩ 2 none "desconocido" none
              0).final_score) := by
  have hrun : best_park_for_day "w" 0 0 (fun p => p.lat) (.ok ([], []))
      (fun _ => .ok []) (fun _ => .ok []) [⟨"P", none, 2, 0⟩] 15
      = .ok
          (some (mkCandidate "w" 0 0 ⟨"P", none, 2, 0⟩ 2 none "desconocido"
            none 0),
          [mkCandidate "w" 0 0 ⟨"P", none, 2, 0⟩ 2 none "desconocido" none
            0]) := by
    norm_num [best_park_for_day, get_weather_score_for_date, weatherScore,
      processParks, get_elevation, get_best_route, updateBest]
  exact ⟨hrun, best_max_over_rounded_final_score "w" 0 0 (fun p => p.lat)
    (.ok ([], [])) (fun _ => .ok []) (fun _ => .ok []) [⟨"P", none, 2, 0⟩]
    15 _ _ hrun⟩

/-- C6: a park whose distance exceeds `max_distance_km` never becomes a
candidate — every produced candidate stems from a catalog park within range
(first conjunct) — and with a catalog of three parks of which only the first
is within range, the run returns exactly one candidate and it is the best
(second conjunct). -/
theorem prefilter_excludes_far_parks :
    (∀ (day : String) (ulat ulon : ℚ) (distFn : Park → ℚ)
        (weatherResp : Except Unit (List ℚ × List ℚ))
        (elevResp routeResp : Park → Except Unit (List ℚ))
        (parks : List Park) (maxd : ℚ) (bb : Option Candidate)
        (cs : List Candidate),
      best_park_for_day day ulat ulon distFn weatherResp elevResp routeResp
          parks maxd = .ok (bb, cs) →
      ∀ c ∈ cs, ∃ p ∈ parks, distFn p ≤ maxd ∧ c.name = p.name ∧
        c.distance_km = roundTo 2 (distFn p)) ∧
    (∀ (day : String) (ulat ulon : ℚ) (distFn : Park → ℚ)
        (temps precs es rs : List ℚ)
        (elevResp routeResp : Park → Except Unit (List ℚ))
        (p1 p2 p3 : Park) (maxd : ℚ),
      distFn p1 ≤ maxd → maxd < distFn p2 → maxd < distFn p3 →
      elevResp p1 = .ok es → routeResp p1 = .ok rs →
      ∃ c, best_park_for_day day ulat ulon distFn (.ok (temps, precs))
          elevResp routeResp [p1, p2, p3] maxd = .ok (some c, [c])) := by
  constructor
  · intro day ulat ulon distFn weatherResp elevResp routeResp parks maxd bb cs
      h c hc
    rcases weatherResp with e | ⟨temps, precs⟩
    · simp [best_park_for_day, get_weather_score_for_date] at h
    · have h' : processParks day ulat ulon distFn elevResp routeResp
          (weatherScore temps precs) maxd parks none [] = .ok (bb, cs) := h
      obtain ⟨newCs, h1, _, h3⟩ := processParks_eq day ulat ulon distFn
        elevResp routeResp (weatherScore temps precs) maxd parks none [] bb
        cs h'
      simp only [List.nil_append] at h1
      subst h1
      obtain ⟨p, hp, hle, elev, cat, route, _, _, hceq⟩ := h3 c hc
      subst hceq
      exact ⟨p, hp, hle, rfl, rfl⟩
  · intro day ulat ulon distFn temps precs es rs elevResp routeResp p1 p2 p3
      maxd h1 h2 h3 helev hroute
    obtain ⟨ec, he0⟩ : ∃ ec, get_elevation (.ok es) = .ok ec := by
      cases es with
      | nil => exact ⟨_, rfl⟩
      | cons e es' => exact ⟨_, rfl⟩
    obtain ⟨elev, cat⟩ := ec
    have he : get_elevation (elevResp p1) = .ok (elev, cat) := by
      rw [helev]; exact he0
    obtain ⟨rm, hr0⟩ : ∃ rm, get_best_route (.ok rs) = .ok rm := by
      cases rs with
      | nil => exact ⟨_, rfl⟩
      | cons r rs' => exact ⟨_, rfl⟩
    have hr : get_best_route (routeResp p1) = .ok rm := by
      rw [hroute]; exact hr0
    refine ⟨mkCandidate day ulat ulon p1 (distFn p1) elev cat rm
        (weatherScore temps precs), ?_⟩
    show processParks day ulat ulon distFn elevResp routeResp
        (weatherScore temps precs) maxd [p1, p2, p3] none [] = _
    rw [processParks_cons_step (not_lt.mpr h1) he hr,
      processParks_cons_far h2, processParks_cons_far h3, processParks_nil]
    rfl

/-- Witness for C6's theorem: a catalog of three parks at 1 km, 20 km and
30 km with a 15 km radius. -/
theorem prefilter_excludes_far_parks_witness :
    ∃ c, best_park_for_day "d" 0 0 (fun p => p.lat) (.ok ([], []))
        (fun _ => .ok []) (fun _ => .ok [])
        [⟨"A", none, 1, 0⟩, ⟨"B", none, 20, 0⟩, ⟨"C", none, 30, 0⟩] 15
        = .ok (some c, [c]) :=
  prefilter_excludes_far_parks.2 "d" 0 0 (fun p => p.lat) [] [] [] []
    (fun _ => .ok []) (fun _ => .ok []) ⟨"A", none, 1, 0⟩ ⟨"B", none, 20, 0⟩
    ⟨"C", none, 30, 0⟩ 15 (by norm_num) (by norm_num) (by norm_num) rfl rfl

/-- C9 counterexample: an HTTP-level failure of the elevation provider for a
surviving park does not degrade to an absent value — the exception
propagates and the whole query aborts with an error, producing no candidate
list at all (the park is dropped together with the entire result). -/
theorem elevation_http_error_aborts_whole_query :
    best_park_for_day "q" 0 0 (fun _ => 2) (.ok ([15], [0]))
        (fun _ => .error ()) (fun _ => .ok []) [⟨"Q", none, 0, 0⟩] 15
      = .error () := by
  norm_num [best_park_for_day, get_weather_score_for_date, weatherScore,
    processParks, get_elevation, get_best_route]

/-- C9 (amended): a transport/HTTP-level failure of the elevation or route
provider for a surviving park propagates out of the mediator
(`raise_for_status`) and aborts the whole query with an error; only an
empty result payload degrades to the absent value. -/
theorem provider_http_error_aborts_query :
    (∀ (day : String) (ulat ulon : ℚ) (distFn : Park → ℚ)
        (temps precs : List ℚ)
        (elevResp routeResp : Park → Except Unit (List ℚ))
        (park : Park) (rest : List Park) (maxd : ℚ),
      distFn park ≤ maxd → elevResp park = .error () →
      best_park_for_day day ulat ulon distFn (.ok (temps, precs))
          elevResp routeResp (park :: rest) maxd = .error ()) ∧
    (∀ (day : String) (ulat ulon : ℚ) (distFn : Park → ℚ)
        (temps precs es : List ℚ)
        (elevResp routeResp : Park → Except Unit (List ℚ))
        (park : Park) (rest : List Park) (maxd : ℚ),
      distFn park ≤ maxd → elevResp park = .ok es →
      routeResp park = .error () →
      best_park_for_day day ulat ulon distFn (.ok (temps, precs))
          elevResp routeResp (park :: rest) maxd = .error ()) := by
  constructor
  · intro day ulat ulon distFn temps precs elevResp routeResp park rest maxd
      hle he
    have he' : get_elevation (elevResp park) = .error () := by rw [he]; rfl
    show processParks day ulat ulon distFn elevResp routeResp
        (weatherScore temps precs) maxd (park :: rest) none [] = .error ()
    exact processParks_cons_elev_error (not_lt.mpr hle) he'
  · intro day ulat ulon distFn temps precs es elevResp routeResp park rest
      maxd hle he hr
    obtain ⟨ec, he0⟩ : ∃ ec, get_elevation (.ok es) = .ok ec := by
      cases es with
      | nil => exact ⟨_, rfl⟩
      | cons e es' => exact ⟨_, rfl⟩
    obtain ⟨elev, cat⟩ := ec
    have he' : get_elevation (elevResp park) = .ok (elev, cat) := by
      rw [he]; exact he0
    have hr' : get_best_route (routeResp park) = .error () := by rw [hr]; rfl
    show processParks day ulat ulon distFn elevResp routeResp
        (weatherScore temps precs) maxd (park :: rest) none [] = .error ()
    exact processParks_cons_route_error (not_lt.mpr hle) he' hr'

/-- Witness for the amended C9 theorem: one in-range park whose elevation
(first conjunct) or route (second conjunct) fetch fails at the HTTP level. -/
theorem provider_http_error_aborts_query_witness :
    best_park_for_day "e" 0 0 (fun _ => 1) (.ok ([], []))
        (fun _ => .error ()) (fun _ => .ok []) [⟨"P", none, 0, 0⟩] 15
        = .error () ∧
      best_park_for_day "e" 0 0 (fun _ => 1) (.ok ([], []))
        (fun _ => .ok []) (fun _ => .error ()) [⟨"P", none, 0, 0⟩] 15
        = .error () :=
  ⟨provider_http_error_aborts_query.1 "e" 0 0 (fun _ => 1) [] []
      (fun _ => .error ()) (fun _ => .ok []) ⟨"P", none, 0, 0⟩ [] 15
      (by norm_num) rfl,
    provider_http_error_aborts_query.2 "e" 0 0 (fun _ => 1) [] [] []
      (fun _ => .ok []) (fun _ => .error ()) ⟨"P", none, 0, 0⟩ [] 15
      (by norm_num) rfl rfl⟩

end DataRun
